import Mathlib

/-!
Verification of the whaleback daily analysis engine's numeric kernels.

Each Python kernel is shallowly embedded: floats become exact rationals (ℚ)
where the computation is field arithmetic plus decimal rounding, and reals (ℝ)
where the source uses `math.exp`, `math.log`, powers or square roots.  Python's
`round(x, n)` (round-half-to-even on the scaled value) is modelled by
`roundHalfEven` / `roundTo`.  Optional values (`None`) become `Option`.
String enumerations of the source (signal labels, risk levels, grades) become
Lean inductives with the same constructor names.
-/

namespace Whaleback

/-! ## Decimal rounding (Python `round`) -/

section RoundHalfEven

variable {α : Type} [LinearOrderedField α] [FloorRing α] [DecidableEq α]

/-- Round to the nearest integer, ties to even — the semantics of Python's
builtin `round` with one argument. -/
def roundHalfEven (x : α) : ℤ :=
  if x - ⌊x⌋ = 1/2 then (if ⌊x⌋ % 2 = 0 then ⌊x⌋ else ⌊x⌋ + 1) else round x

/-- Python's `round(x, d)`: round to `d` decimal places, ties to even. -/
def roundTo (x : α) (d : ℕ) : α :=
  (roundHalfEven (x * 10 ^ d) : α) / 10 ^ d

theorem roundHalfEven_sub_le (x : α) : |(roundHalfEven x : α) - x| ≤ 1/2 := by
  unfold roundHalfEven
  split
  · rename_i h
    split <;> push_cast <;> rw [abs_le] <;> constructor <;> linarith
  · rename_i h
    have h1 := abs_sub_round (α := α) x
    calc |(round x : α) - x| = |x - round x| := abs_sub_comm _ _
      _ ≤ 1/2 := h1

theorem roundTo_sub_le (x : α) (d : ℕ) : |roundTo x d - x| ≤ 1 / (2 * 10 ^ d) := by
  have hpow : (0:α) < 10 ^ d := by positivity
  have h := roundHalfEven_sub_le (x * 10 ^ d)
  unfold roundTo
  have hrw : (roundHalfEven (x * 10 ^ d) : α) / 10 ^ d - x
      = ((roundHalfEven (x * 10 ^ d) : α) - x * 10 ^ d) / 10 ^ d := by
    field_simp
    ring
  rw [hrw, abs_div, abs_of_pos hpow]
  calc |(roundHalfEven (x * 10 ^ d) : α) - x * 10 ^ d| / 10 ^ d
      ≤ (1/2) / 10 ^ d := by
        exact div_le_div_of_nonneg_right h hpow.le
    _ = 1 / (2 * 10 ^ d) := by ring

/-- If `x` lies strictly inside `(n - 1/2, n + 1/2)` then half-even rounding
returns `n`. -/
theorem roundHalfEven_eq (x : α) (n : ℤ) (h1 : (n : α) - 1/2 < x)
    (h2 : x < (n : α) + 1/2) : roundHalfEven x = n := by
  have hfl : (n : ℤ) - 1 ≤ ⌊x⌋ := by
    apply Int.le_floor.mpr
    have hc : (((n : ℤ) - 1 : ℤ) : α) = (n : α) - 1 := by push_cast; ring
    rw [hc]
    linarith
  have hfu : ⌊x⌋ < n + 1 := by
    apply Int.floor_lt.mpr
    have : ((n + 1 : ℤ) : α) = (n : α) + 1 := by push_cast; ring
    rw [this]
    linarith
  have hfloor : ⌊x⌋ = n ∨ ⌊x⌋ = n - 1 := by omega
  have hne : ¬ x - ⌊x⌋ = 1/2 := by
    rcases hfloor with hf | hf <;> rw [hf] <;> intro hc <;> push_cast at hc <;> linarith
  unfold roundHalfEven
  rw [if_neg hne, round_eq]
  apply Int.floor_eq_iff.mpr
  constructor <;> push_cast <;> linarith

/-- Exact value of `roundTo` from strict bracketing of the scaled argument. -/
theorem roundTo_eq (x : α) (d : ℕ) (n : ℤ) (h1 : (n : α) - 1/2 < x * 10 ^ d)
    (h2 : x * 10 ^ d < (n : α) + 1/2) : roundTo x d = (n : α) / 10 ^ d := by
  unfold roundTo
  rw [roundHalfEven_eq (x * 10 ^ d) n h1 h2]

end RoundHalfEven

/-! ## C1 — RIM valuation (`analysis/quant.py`, `compute_rim`) -/

/-- Reason tag of a non-computable RIM result. -/
inductive RimReason
  | missing_data
  | negative_bps
deriving DecidableEq, Repr

/-- Result of `compute_rim` (the echoed `inputs` sub-dict is elided). -/
structure RimResult where
  rim_value : Option ℚ
  computable : Bool
  reason : Option RimReason
deriving DecidableEq, Repr

/-- Embedding of `compute_rim(bps, roe, risk_free_rate, equity_risk_premium,
growth_rate)` from `analysis/quant.py`.  The Python defaults are
`risk_free_rate=0.035`, `equity_risk_premium=0.065`, `growth_rate=0.0`;
callers of the embedding pass them explicitly. -/
def compute_rim (bps roe : Option ℚ)
    (risk_free_rate equity_risk_premium growth_rate : ℚ) : RimResult :=
  let required_return := risk_free_rate + equity_risk_premium
  match bps, roe with
  | none, _ => ⟨none, false, some .missing_data⟩
  | some _, none => ⟨none, false, some .missing_data⟩
  | some b, some r =>
    if b ≤ 0 then ⟨none, false, some .negative_bps⟩
    else
      let roe_decimal := r / 100
      let denominator := required_return - growth_rate
      let rim_value :=
        if |denominator| < 1 / 10 ^ 10 then
          (if roe_decimal > required_return then b * 10 else b)
        else
          b + (roe_decimal - required_return) * b / denominator
      ⟨some (roundTo (max rim_value 0) 2), true, none⟩

/-- The spec's general RIM formula: `max(0, bps + (roe/100 − r)·bps / (r − g))`
rounded to 2 decimal places, with `r = r_f + erp`. -/
def rimSpecFormula (bps roe_pct r_f erp g : ℚ) : ℚ :=
  roundTo (max 0 (bps + (roe_pct / 100 - (r_f + erp)) * bps / ((r_f + erp) - g))) 2

/-- C1: counterexample.  With `bps=50000`, `roe_pct=15.0` and the default
parameters, `compute_rim` returns `rim_value = 75000.00` — and the spec's own
general formula also yields 75000 — not the 70000.00 stated by the claim. -/
theorem c1_counterexample :
    (compute_rim (some 50000) (some 15) 0.035 0.065 0).rim_value = some 75000 ∧
    rimSpecFormula 50000 15 0.035 0.065 0 = 75000 ∧ (75000 : ℚ) ≠ 70000 := by
  have h75 : roundTo (75000 : ℚ) 2 = 75000 := by
    rw [roundTo_eq (75000 : ℚ) 2 7500000 (by norm_num) (by norm_num)]
    norm_num
  have hif : max (if |(0.035:ℚ) + 0.065 - 0| < 1 / 10 ^ 10 then
      (if (15:ℚ)/100 > (0.035:ℚ) + 0.065 then (50000:ℚ) * 10 else 50000)
      else 50000 + ((15:ℚ)/100 - ((0.035:ℚ) + 0.065)) * 50000 / ((0.035:ℚ) + 0.065 - 0)) 0
      = (75000:ℚ) := by
    rw [if_neg (by rw [abs_of_pos (by norm_num : (0:ℚ) < 0.035 + 0.065 - 0)]; norm_num)]
    norm_num
  have hspecmax : max (0:ℚ)
      (50000 + ((15:ℚ)/100 - ((0.035:ℚ) + 0.065)) * 50000 / (((0.035:ℚ) + 0.065) - 0))
      = (75000:ℚ) := by norm_num
  refine ⟨?_, ?_, by norm_num⟩
  · show some (roundTo (max _ 0) 2) = some 75000
    rw [hif, h75]
  · unfold rimSpecFormula
    rw [hspecmax, h75]

/-- C1 amended: `rim(bps=50000, roe_pct=15.0)` with the default parameters
returns a computable result whose `rim_value` equals the spec's general
formula `max(0, bps + (roe/100 − r)·bps / (r − g))` rounded to 2 dp, namely
75000.00, not 70000.00. -/
theorem c1_rim_default_example :
    (compute_rim (some 50000) (some 15) 0.035 0.065 0).computable = true ∧
    (compute_rim (some 50000) (some 15) 0.035 0.065 0).rim_value =
      some (rimSpecFormula 50000 15 0.035 0.065 0) ∧
    rimSpecFormula 50000 15 0.035 0.065 0 = 75000 := by
  have h75 : roundTo (75000 : ℚ) 2 = 75000 := by
    rw [roundTo_eq (75000 : ℚ) 2 7500000 (by norm_num) (by norm_num)]
    norm_num
  have hif : max (if |(0.035:ℚ) + 0.065 - 0| < 1 / 10 ^ 10 then
      (if (15:ℚ)/100 > (0.035:ℚ) + 0.065 then (50000:ℚ) * 10 else 50000)
      else 50000 + ((15:ℚ)/100 - ((0.035:ℚ) + 0.065)) * 50000 / ((0.035:ℚ) + 0.065 - 0)) 0
      = (75000:ℚ) := by
    rw [if_neg (by rw [abs_of_pos (by norm_num : (0:ℚ) < 0.035 + 0.065 - 0)]; norm_num)]
    norm_num
  have hspecmax : max (0:ℚ)
      (50000 + ((15:ℚ)/100 - ((0.035:ℚ) + 0.065)) * 50000 / (((0.035:ℚ) + 0.065) - 0))
      = (75000:ℚ) := by norm_num
  have hspec : rimSpecFormula 50000 15 0.035 0.065 0 = 75000 := by
    unfold rimSpecFormula
    rw [hspecmax, h75]
  refine ⟨rfl, ?_, hspec⟩
  rw [hspec]
  show some (roundTo (max _ 0) 2) = some 75000
  rw [hif, h75]

/-! ## C2 — RS percentile (`analysis/trend.py`, `compute_rs_percentile`) -/

/-- Embedding of `compute_rs_percentile(ticker_rs, all_rs_values)`:
filter out `None`, count strictly-smaller entries, take
`int(round(below / len(valid) * 100))`, cap at 100. -/
def compute_rs_percentile (ticker_rs : Option ℚ) (all_rs_values : List (Option ℚ)) :
    Option ℕ :=
  match ticker_rs with
  | none => none
  | some rs =>
    if all_rs_values.isEmpty then none
    else
      let valid := all_rs_values.filterMap id
      if valid.isEmpty then none
      else
        let below := (valid.filter (fun v => v < rs)).length
        let percentile := (roundHalfEven ((below : ℚ) / valid.length * 100)).toNat
        some (min percentile 100)

/-- C2: counterexample.  For a ticker whose 20-day RS is 3 in the universe
`[1, 2, 3]`, two of three entries are strictly below, so the claim's formula
`⌊below / N · 100⌋ = ⌊200/3⌋ = 66`; the code returns `round(200/3) = 67`. -/
theorem c2_counterexample :
    compute_rs_percentile (some 3) [some 1, some 2, some 3] = some 67 ∧
    ⌊((2 : ℚ) / 3 * 100)⌋ = 66 ∧ (67 : ℕ) ≠ 66 := by
  refine ⟨?_, ?_, by norm_num⟩
  · unfold compute_rs_percentile
    norm_num [List.filterMap, List.filter]
    rw [roundHalfEven_eq ((200:ℚ)/3) 67 (by norm_num) (by norm_num)]
    rfl
  · apply Int.floor_eq_iff.mpr
    constructor <;> norm_num

/-- C2 amended: for every ticker with a defined 20-day RS and at least one
non-null entry in the gathered universe, the assigned RS-percentile is
`min(100, round(below · 100 / N))` with round-half-to-even (Python `round`),
where `below` counts strictly smaller non-null entries and `N` is the number
of non-null entries — nearest-integer rounding, not floor. -/
theorem c2_rs_percentile (rs : ℚ) (l : List (Option ℚ))
    (hvalid : l.filterMap id ≠ []) :
    compute_rs_percentile (some rs) l =
      some (min ((roundHalfEven
        ((((l.filterMap id).countP (fun v => decide (v < rs))) : ℚ) * 100 /
          (l.filterMap id).length)).toNat) 100) := by
  have hl : ¬ l.isEmpty = true := by
    intro h
    apply hvalid
    rw [List.isEmpty_iff] at h
    simp [h]
  have hv : ¬ (l.filterMap id).isEmpty = true := by
    simpa [List.isEmpty_iff] using hvalid
  simp only [compute_rs_percentile, if_neg hl, if_neg hv]
  congr 3
  rw [List.countP_eq_length_filter, div_mul_eq_mul_div]

/-- C2 amended, witness: the theorem instantiated on the three-ticker
universe with RS 3. -/
theorem c2_rs_percentile_witness :
    ([some (1:ℚ), some 2, some 3].filterMap id ≠ []) ∧
    compute_rs_percentile (some 3) [some 1, some 2, some 3] =
      some (min ((roundHalfEven
        (((([some (1:ℚ), some 2, some 3].filterMap id).countP
            (fun v => decide (v < 3))) : ℚ) * 100 /
          ([some (1:ℚ), some 2, some 3].filterMap id).length)).toNat) 100) :=
  ⟨by simp [List.filterMap], c2_rs_percentile 3 [some 1, some 2, some 3] (by simp [List.filterMap])⟩

/-! ## Composite score (`analysis/composite.py`)

The float arithmetic of the sub-scores uses `math.exp` and a fractional power,
so sub-scores live in ℝ; the weight table and its redistribution are decimal
constants and field operations, kept in ℚ.  Korean display labels, the
`pattern` / `action` strings and the echoed `inputs` are elided; every numeric
field and every branch of the source is embedded. -/

/-- The five axis weights (`DEFAULT_WEIGHTS` and the profile presets share
this shape). -/
structure Weights where
  w_value : ℚ
  w_flow : ℚ
  w_momentum : ℚ
  w_forecast : ℚ
  w_sentiment : ℚ
deriving DecidableEq, Repr

/-- `DEFAULT_WEIGHTS` of `analysis/composite.py`. -/
def DEFAULT_WEIGHTS : Weights := ⟨0.25, 0.25, 0.20, 0.20, 0.10⟩

/-- Sum of the five entries of a weight map. -/
def Weights.total (w : Weights) : ℚ :=
  w.w_value + w.w_flow + w.w_momentum + w.w_forecast + w.w_sentiment

/-- The all-zero weight map returned when no axis is available. -/
def zeroWeights : Weights := ⟨0, 0, 0, 0, 0⟩

/-- Sector-rotation quadrant labels produced by `compute_sector_rotation`. -/
inductive Quadrant
  | leading
  | improving
  | weakening
  | lagging
  | neutral
deriving DecidableEq, Repr

/-- Embedding of `_quadrant_bonus`: `leading → +15`, `improving → +10`,
`weakening → -5`, `lagging → -15`, anything else (including absent) `0`. -/
def quadrant_bonus (q : Option Quadrant) : ℝ :=
  match q with
  | some .leading => 15
  | some .improving => 10
  | some .weakening => -5
  | some .lagging => -15
  | some .neutral => 0
  | none => 0

/-- The `quant_data` dict slice read by the composite combiner. -/
structure QuantData where
  fscore : Option ℤ
  safety_margin : Option ℝ
  data_completeness : Option ℝ

/-- The `whale_data` dict slice read by the composite combiner. -/
structure WhaleData where
  whale_score : Option ℝ

/-- The `trend_data` dict slice read by the composite combiner. -/
structure TrendData where
  rs_percentile : Option ℝ
  sector_quadrant : Option Quadrant

/-- The `simulation_data` dict slice read by the composite combiner. -/
structure SimulationData where
  simulation_score : Option ℝ

/-- The `sentiment_data` dict slice read by the composite combiner. -/
structure SentimentData where
  sentiment_score : Option ℝ

/-- Embedding of `normalize_fscore(fscore, max_score)`:
`(max(fscore,0)/max_score) ** 1.3 * 100` rounded to 2 dp, `0` when
`max_score ≤ 0`. -/
noncomputable def normalize_fscore (fscore : ℤ) (max_score : ℤ) : ℝ :=
  if max_score ≤ 0 then 0
  else roundTo ((((max fscore 0 : ℤ) : ℝ) / (max_score : ℝ)) ^ (1.3 : ℝ) * 100) 2

/-- Embedding of `normalize_safety_margin(margin_pct)`: `50.0` when the margin
is absent, otherwise the argument is clamped to `[-500, 500]` and mapped
through `100 / (1 + exp(-clamped / 25))`, rounded to 2 dp. -/
noncomputable def normalize_safety_margin (margin_pct : Option ℝ) : ℝ :=
  match margin_pct with
  | none => 50
  | some v => roundTo (100 / (1 + Real.exp (-(max (-500) (min v 500)) / 25))) 2

/-- Value sub-score section of `compute_composite_score`. -/
noncomputable def value_score_of (quant_data : Option QuantData) : Option ℝ :=
  match quant_data with
  | none => none
  | some q =>
    match q.fscore with
    | none => none
    | some f =>
      let completeness := min (q.data_completeness.getD 1) 1
      some (roundTo ((0.55 * normalize_fscore f 9
        + 0.45 * normalize_safety_margin q.safety_margin) * completeness) 2)

/-- Flow sub-score section of `compute_composite_score`, including the
sector-flow bonus clamp applied when the bonus is non-zero. -/
noncomputable def flow_score_of (whale_data : Option WhaleData)
    (sector_flow_bonus : ℝ) : Option ℝ :=
  match whale_data with
  | none => none
  | some wd =>
    match wd.whale_score with
    | none => none
    | some ws =>
      let f0 := roundTo ws 2
      if sector_flow_bonus ≠ 0 then
        some (roundTo (max 0 (min (f0 + sector_flow_bonus) 100)) 2)
      else
        some f0

/-- Momentum sub-score section of `compute_composite_score`. -/
noncomputable def momentum_score_of (trend_data : Option TrendData) : Option ℝ :=
  match trend_data with
  | none => none
  | some t =>
    match t.rs_percentile with
    | none => none
    | some rs =>
      some (roundTo (max 0 (min (rs + quadrant_bonus t.sector_quadrant) 100)) 2)

/-- Forecast sub-score section of `compute_composite_score`. -/
noncomputable def forecast_score_of (simulation_data : Option SimulationData) : Option ℝ :=
  match simulation_data with
  | none => none
  | some s =>
    match s.simulation_score with
    | none => none
    | some v => some (roundTo v 2)

/-- Sentiment sub-score section of `compute_composite_score`. -/
noncomputable def sentiment_score_of (sentiment_data : Option SentimentData) : Option ℝ :=
  match sentiment_data with
  | none => none
  | some s =>
    match s.sentiment_score with
    | none => none
    | some v => some (roundTo v 2)

/-- `axes_available`: how many of the five axes are available. -/
def axesCount (hv hf hm hfc hs : Bool) : ℕ :=
  (if hv then 1 else 0) + (if hf then 1 else 0) + (if hm then 1 else 0)
    + (if hfc then 1 else 0) + (if hs then 1 else 0)

/-- `available_weight_sum` of `compute_composite_score`. -/
def availableWeightSum (w : Weights) (hv hf hm hfc hs : Bool) : ℚ :=
  (if hv then w.w_value else 0) + (if hf then w.w_flow else 0)
    + (if hm then w.w_momentum else 0) + (if hfc then w.w_forecast else 0)
    + (if hs then w.w_sentiment else 0)

/-- The weight-redistribution loop of `compute_composite_score`: each entry is
`round(w[key] / available_weight_sum, 4)` when its axis is available and the
available sum is positive, else `0.0`. -/
def redistributeWeights (w : Weights) (hv hf hm hfc hs : Bool) : Weights :=
  let s := availableWeightSum w hv hf hm hfc hs
  ⟨if hv ∧ 0 < s then roundTo (w.w_value / s) 4 else 0,
   if hf ∧ 0 < s then roundTo (w.w_flow / s) 4 else 0,
   if hm ∧ 0 < s then roundTo (w.w_momentum / s) 4 else 0,
   if hfc ∧ 0 < s then roundTo (w.w_forecast / s) 4 else 0,
   if hs ∧ 0 < s then roundTo (w.w_sentiment / s) 4 else 0⟩

/-- One weighted term of the composite accumulation (`composite += w * score`
when the axis is available). -/
noncomputable def weightedPart (wt : ℚ) (score : Option ℝ) : ℝ :=
  match score with
  | some v => (wt : ℝ) * v
  | none => 0

/-- Result record of `compute_composite_score`. -/
structure CompositeResult where
  composite_score : Option ℝ
  value_score : Option ℝ
  flow_score : Option ℝ
  momentum_score : Option ℝ
  forecast_score : Option ℝ
  sentiment_score : Option ℝ
  weights_used : Weights
  confidence : ℚ
  axes_available : ℕ

/-- Embedding of `compute_composite_score(quant_data, whale_data, trend_data,
simulation_data, sector_flow_bonus, weights, sentiment_data)`.  A `weights`
argument of `none` means the Python default `DEFAULT_WEIGHTS`. -/
noncomputable def compute_composite_score (quant_data : Option QuantData)
    (whale_data : Option WhaleData) (trend_data : Option TrendData)
    (simulation_data : Option SimulationData) (sector_flow_bonus : ℝ)
    (weights : Option Weights) (sentiment_data : Option SentimentData) :
    CompositeResult :=
  let w := weights.getD DEFAULT_WEIGHTS
  let vs := value_score_of quant_data
  let fs := flow_score_of whale_data sector_flow_bonus
  let ms := momentum_score_of trend_data
  let fcs := forecast_score_of simulation_data
  let ss := sentiment_score_of sentiment_data
  let axes := axesCount vs.isSome fs.isSome ms.isSome fcs.isSome ss.isSome
  if axes = 0 then
    ⟨none, none, none, none, none, none, zeroWeights, 0, 0⟩
  else
    let wu := redistributeWeights w vs.isSome fs.isSome ms.isSome fcs.isSome ss.isSome
    let composite := weightedPart wu.w_value vs + weightedPart wu.w_flow fs
      + weightedPart wu.w_momentum ms + weightedPart wu.w_forecast fcs
      + weightedPart wu.w_sentiment ss
    ⟨some (roundTo composite 2), vs, fs, ms, fcs, ss, wu,
      roundTo ((axes : ℚ) / 5) 2, axes⟩

theorem availableWeightSum_pos (w : Weights) (bv bf bm bfc bs : Bool)
    (hw : 0 < w.w_value ∧ 0 < w.w_flow ∧ 0 < w.w_momentum ∧ 0 < w.w_forecast ∧
      0 < w.w_sentiment)
    (hone : bv = true ∨ bf = true ∨ bm = true ∨ bfc = true ∨ bs = true) :
    0 < availableWeightSum w bv bf bm bfc bs := by
  obtain ⟨h1, h2, h3, h4, h5⟩ := hw
  unfold availableWeightSum
  rcases hone with h | h | h | h | h <;> rw [h] <;> split_ifs <;> simp_all <;> linarith

theorem axesCount_ne_zero_flag (bv bf bm bfc bs : Bool)
    (h : axesCount bv bf bm bfc bs ≠ 0) :
    bv = true ∨ bf = true ∨ bm = true ∨ bfc = true ∨ bs = true := by
  cases bv <;> cases bf <;> cases bm <;> cases bfc <;> cases bs <;> simp_all [axesCount]

theorem abs_add_five (a b c d e : ℚ) : |a + b + c + d + e| ≤ |a| + |b| + |c| + |d| + |e| := by
  calc |a + b + c + d + e| ≤ |a + b + c + d| + |e| := abs_add _ _
    _ ≤ (|a + b + c| + |d|) + |e| := by gcongr; exact abs_add _ _
    _ ≤ ((|a + b| + |c|) + |d|) + |e| := by gcongr; exact abs_add _ _
    _ ≤ (((|a| + |b|) + |c|) + |d|) + |e| := by gcongr; exact abs_add _ _
    _ = |a| + |b| + |c| + |d| + |e| := by ring

theorem redistributeWeights_total_near (w : Weights) (bv bf bm bfc bs : Bool)
    (hpos : 0 < availableWeightSum w bv bf bm bfc bs) :
    |(redistributeWeights w bv bf bm bfc bs).total - 1| ≤
      (axesCount bv bf bm bfc bs : ℚ) / 20000 := by
  have hne := hpos.ne'
  have hround : ∀ q : ℚ, |roundTo q 4 - q| ≤ 1/20000 := by
    intro q
    have := roundTo_sub_le q 4
    calc |roundTo q 4 - q| ≤ 1 / (2 * 10 ^ 4) := this
      _ = 1/20000 := by norm_num
  have hterm : ∀ (b : Bool) (wi : ℚ),
      |(if b ∧ 0 < availableWeightSum w bv bf bm bfc bs
          then roundTo (wi / availableWeightSum w bv bf bm bfc bs) 4 else 0) -
        (if b then wi / availableWeightSum w bv bf bm bfc bs else 0)| ≤
        (if b then (1:ℚ)/20000 else 0) := by
    intro b wi
    cases b
    · simp
    · simp only [true_and, if_pos hpos, if_true]
      exact hround _
  have h1 := hterm bv w.w_value
  have h2 := hterm bf w.w_flow
  have h3 := hterm bm w.w_momentum
  have h4 := hterm bfc w.w_forecast
  have h5 := hterm bs w.w_sentiment
  have hideal : (if bv then w.w_value / availableWeightSum w bv bf bm bfc bs else 0)
      + (if bf then w.w_flow / availableWeightSum w bv bf bm bfc bs else 0)
      + (if bm then w.w_momentum / availableWeightSum w bv bf bm bfc bs else 0)
      + (if bfc then w.w_forecast / availableWeightSum w bv bf bm bfc bs else 0)
      + (if bs then w.w_sentiment / availableWeightSum w bv bf bm bfc bs else 0) = 1 := by
    have hexp : (if bv then w.w_value / availableWeightSum w bv bf bm bfc bs else 0)
        + (if bf then w.w_flow / availableWeightSum w bv bf bm bfc bs else 0)
        + (if bm then w.w_momentum / availableWeightSum w bv bf bm bfc bs else 0)
        + (if bfc then w.w_forecast / availableWeightSum w bv bf bm bfc bs else 0)
        + (if bs then w.w_sentiment / availableWeightSum w bv bf bm bfc bs else 0)
        = availableWeightSum w bv bf bm bfc bs / availableWeightSum w bv bf bm bfc bs := by
      unfold availableWeightSum
      split_ifs <;> ring
    rw [hexp, div_self hne]
  have hax : ((axesCount bv bf bm bfc bs : ℕ) : ℚ) / 20000
      = (if bv then (1:ℚ)/20000 else 0) + (if bf then (1:ℚ)/20000 else 0)
        + (if bm then (1:ℚ)/20000 else 0) + (if bfc then (1:ℚ)/20000 else 0)
        + (if bs then (1:ℚ)/20000 else 0) := by
    cases bv <;> cases bf <;> cases bm <;> cases bfc <;> cases bs <;>
      norm_num [axesCount]
  have htot : (redistributeWeights w bv bf bm bfc bs).total
      = (if bv ∧ 0 < availableWeightSum w bv bf bm bfc bs
          then roundTo (w.w_value / availableWeightSum w bv bf bm bfc bs) 4 else 0)
      + (if bf ∧ 0 < availableWeightSum w bv bf bm bfc bs
          then roundTo (w.w_flow / availableWeightSum w bv bf bm bfc bs) 4 else 0)
      + (if bm ∧ 0 < availableWeightSum w bv bf bm bfc bs
          then roundTo (w.w_momentum / availableWeightSum w bv bf bm bfc bs) 4 else 0)
      + (if bfc ∧ 0 < availableWeightSum w bv bf bm bfc bs
          then roundTo (w.w_forecast / availableWeightSum w bv bf bm bfc bs) 4 else 0)
      + (if bs ∧ 0 < availableWeightSum w bv bf bm bfc bs
          then roundTo (w.w_sentiment / availableWeightSum w bv bf bm bfc bs) 4 else 0) := rfl
  rw [htot, ← hideal, hax]
  have hsplit : ∀ e1 e2 e3 e4 e5 d1 d2 d3 d4 d5 : ℚ,
      (e1 + e2 + e3 + e4 + e5) - (d1 + d2 + d3 + d4 + d5)
        = (e1 - d1) + (e2 - d2) + (e3 - d3) + (e4 - d4) + (e5 - d5) := by
    intros
    ring
  rw [hsplit]
  refine le_trans (abs_add_five _ _ _ _ _) ?_
  exact add_le_add (add_le_add (add_le_add (add_le_add h1 h2) h3) h4) h5



/-- C3: counterexample.  With exactly the value, flow and momentum axes
available and the default weights, the redistributed weights are
`round(0.25/0.7, 4) = 0.3571` (twice) and `round(0.20/0.7, 4) = 0.2857`, whose
sum is 0.9999 — off from 1.0 by 10⁻⁴, far beyond one double-precision ulp
(2⁻⁵²) per available axis. -/
theorem c3_counterexample :
    (compute_composite_score (some ⟨some 9, none, some 1⟩) (some ⟨some 80⟩)
      (some ⟨some 50, none⟩) none 0 none none).axes_available = 3 ∧
    (compute_composite_score (some ⟨some 9, none, some 1⟩) (some ⟨some 80⟩)
      (some ⟨some 50, none⟩) none 0 none none).weights_used.total = 9999/10000 ∧
    ¬ |(9999:ℚ)/10000 - 1| ≤ 3 * (1/2^52) := by
  have hA : roundTo ((5:ℚ)/14) 4 = 3571/10000 := by
    rw [roundTo_eq ((5:ℚ)/14) 4 3571 (by norm_num) (by norm_num)]
    norm_num
  have hB : roundTo ((2:ℚ)/7) 4 = 2857/10000 := by
    rw [roundTo_eq ((2:ℚ)/7) 4 2857 (by norm_num) (by norm_num)]
    norm_num
  have habs : |(9999:ℚ)/10000 - 1| = 1/10000 := by
    rw [show (9999:ℚ)/10000 - 1 = -(1/10000) by norm_num, abs_neg, abs_of_pos (by norm_num)]
  refine ⟨?_, ?_, by rw [habs]; norm_num⟩
  · simp only [compute_composite_score, value_score_of, flow_score_of, momentum_score_of,
      forecast_score_of, sentiment_score_of, Option.getD, Option.isSome, axesCount]
    norm_num
  · simp only [compute_composite_score, value_score_of, flow_score_of, momentum_score_of,
      forecast_score_of, sentiment_score_of, Option.getD, Option.isSome, axesCount]
    norm_num [redistributeWeights, availableWeightSum, DEFAULT_WEIGHTS, Weights.total]
    rw [hA, hB]
    norm_num

/-- C3 amended: whenever at least one axis is available and every configured
weight is positive, the five redistributed weights (each rounded to 4 decimal
places by the source) sum to 1.0 within 1/20000 (half of the last retained
decimal) per available axis — not within 1 ulp — and the sum is 0 when no
axis is available. -/
theorem c3_weights_used_sum (q : Option QuantData) (wd : Option WhaleData)
    (t : Option TrendData) (sd : Option SimulationData) (b : ℝ)
    (wt : Option Weights) (st : Option SentimentData)
    (hw : 0 < (wt.getD DEFAULT_WEIGHTS).w_value ∧ 0 < (wt.getD DEFAULT_WEIGHTS).w_flow ∧
      0 < (wt.getD DEFAULT_WEIGHTS).w_momentum ∧ 0 < (wt.getD DEFAULT_WEIGHTS).w_forecast ∧
      0 < (wt.getD DEFAULT_WEIGHTS).w_sentiment) :
    ((compute_composite_score q wd t sd b wt st).axes_available = 0 →
      (compute_composite_score q wd t sd b wt st).weights_used.total = 0) ∧
    (1 ≤ (compute_composite_score q wd t sd b wt st).axes_available →
      |(compute_composite_score q wd t sd b wt st).weights_used.total - 1| ≤
        ((compute_composite_score q wd t sd b wt st).axes_available : ℚ) / 20000) := by
  simp only [compute_composite_score]
  split
  · rename_i hax
    refine ⟨fun _ => by norm_num [zeroWeights, Weights.total], fun hge => ?_⟩
    simp at hge
  · rename_i hax
    refine ⟨fun h0 => absurd h0 hax, fun _ => ?_⟩
    exact redistributeWeights_total_near _ _ _ _ _ _
      (availableWeightSum_pos _ _ _ _ _ _ hw
        (axesCount_ne_zero_flag _ _ _ _ _ hax))

/-- C3 amended, witness: the value/flow/momentum configuration with default
weights, where the sum is 0.9999 and the allowed slack is 3/20000. -/
theorem c3_weights_used_sum_witness :
    (0 < ((none : Option Weights).getD DEFAULT_WEIGHTS).w_value ∧
      0 < ((none : Option Weights).getD DEFAULT_WEIGHTS).w_flow ∧
      0 < ((none : Option Weights).getD DEFAULT_WEIGHTS).w_momentum ∧
      0 < ((none : Option Weights).getD DEFAULT_WEIGHTS).w_forecast ∧
      0 < ((none : Option Weights).getD DEFAULT_WEIGHTS).w_sentiment) ∧
    (1 ≤ (compute_composite_score (some ⟨some 9, none, some 1⟩) (some ⟨some 80⟩)
        (some ⟨some 50, none⟩) none 0 none none).axes_available →
      |(compute_composite_score (some ⟨some 9, none, some 1⟩) (some ⟨some 80⟩)
        (some ⟨some 50, none⟩) none 0 none none).weights_used.total - 1| ≤
        ((compute_composite_score (some ⟨some 9, none, some 1⟩) (some ⟨some 80⟩)
          (some ⟨some 50, none⟩) none 0 none none).axes_available : ℚ) / 20000) :=
  ⟨by norm_num [DEFAULT_WEIGHTS, Option.getD],
    (c3_weights_used_sum (some ⟨some 9, none, some 1⟩) (some ⟨some 80⟩)
      (some ⟨some 50, none⟩) none 0 none none
      (by norm_num [DEFAULT_WEIGHTS, Option.getD])).2⟩

/-! ## C4 — Confluence detection (`analysis/composite.py`, `detect_confluence`) -/

/-- Discrete signal levels produced by `_classify_signal`. -/
inductive Signal
  | strong_buy
  | buy
  | neutral
  | sell
  | strong_sell
  | unknown
deriving DecidableEq, Repr, Fintype

/-- Embedding of `_classify_signal(score)`: `unknown` for `None`, else the
75 / 60 / 40 / 25 threshold cascade. -/
noncomputable def classify_signal (score : Option ℝ) : Signal :=
  match score with
  | none => .unknown
  | some s =>
    if 75 ≤ s then .strong_buy
    else if 60 ≤ s then .buy
    else if 40 ≤ s then .neutral
    else if 25 ≤ s then .sell
    else .strong_sell

/-- Membership in `BUY_SIGNALS = {strong_buy, buy}`. -/
def isBuySig : Signal → Bool
  | .strong_buy => true
  | .buy => true
  | _ => false

/-- Membership in `SELL_SIGNALS = {strong_sell, sell}`. -/
def isSellSig : Signal → Bool
  | .strong_sell => true
  | .sell => true
  | _ => false

/-- A signal different from `unknown` (the `known_signals` filter). -/
def isKnownSig : Signal → Bool
  | .unknown => false
  | _ => true

/-- Direction paired with the confluence tier in the source. -/
inductive Direction
  | buy
  | sell
  | neutral
deriving DecidableEq, Repr

/-- The confluence-tier cascade of `detect_confluence`, on the four classified
signals, first match wins, exactly as the source orders its branches. -/
def confluenceTierDir (v f m fc : Signal) : ℕ × Direction :=
  let known := [v, f, m, fc].filter isKnownSig
  let num_known := known.length
  let buy_count := (known.filter isBuySig).length
  let sell_count := (known.filter isSellSig).length
  let strong_buy_count := (known.filter (fun s => s == Signal.strong_buy)).length
  let strong_sell_count := (known.filter (fun s => s == Signal.strong_sell)).length
  if 3 ≤ num_known ∧ strong_buy_count = num_known then (5, .buy)
  else if 3 ≤ num_known ∧ strong_sell_count = num_known then (5, .sell)
  else if 3 ≤ num_known ∧ buy_count = num_known then (4, .buy)
  else if 3 ≤ num_known ∧ sell_count = num_known then (4, .sell)
  else if 2 ≤ strong_buy_count ∧ 2 ≤ buy_count + strong_buy_count
      ∧ num_known - buy_count ≤ 1 then (3, .buy)
  else if 2 ≤ strong_sell_count ∧ 2 ≤ sell_count + strong_sell_count
      ∧ num_known - sell_count ≤ 1 then (3, .sell)
  else if strong_buy_count = 1 ∧ sell_count = 0 ∧ strong_sell_count = 0 then (2, .buy)
  else if strong_sell_count = 1 ∧ buy_count = 0 ∧ strong_buy_count = 0 then (2, .sell)
  else (1, .neutral)

/-- The divergence labels of `detect_confluence`. -/
inductive DivergenceType
  | value_momentum_divergence
  | momentum_value_divergence
  | flow_value_divergence
  | forecast_value_divergence
  | forecast_momentum_divergence
deriving DecidableEq, Repr

/-- The divergence cascade of `detect_confluence`, in source order. -/
def divergenceOf (v f m fc : Signal) : Option DivergenceType :=
  if isBuySig v ∧ isSellSig m then some .value_momentum_divergence
  else if isBuySig m ∧ isSellSig v then some .momentum_value_divergence
  else if isBuySig f ∧ isSellSig v then some .flow_value_divergence
  else if isBuySig fc ∧ isSellSig v then some .forecast_value_divergence
  else if isSellSig fc ∧ isBuySig m then some .forecast_momentum_divergence
  else none

/-- Result record of `detect_confluence` (the Korean `pattern`, `severity`,
`label` and `action` strings, which are pure functions of the fields kept
here, are elided). -/
structure ConfluenceResult where
  confluence_tier : ℕ
  direction : Direction
  value_signal : Signal
  flow_signal : Signal
  momentum_signal : Signal
  forecast_signal : Signal
  divergence_type : Option DivergenceType

/-- Embedding of `detect_confluence(value_score, flow_score, momentum_score,
forecast_score)`. -/
noncomputable def detect_confluence (value_score flow_score momentum_score
    forecast_score : Option ℝ) : ConfluenceResult :=
  let v_sig := classify_signal value_score
  let f_sig := classify_signal flow_score
  let m_sig := classify_signal momentum_score
  let fc_sig := classify_signal forecast_score
  let td := confluenceTierDir v_sig f_sig m_sig fc_sig
  ⟨td.1, td.2, v_sig, f_sig, m_sig, fc_sig, divergenceOf v_sig f_sig m_sig fc_sig⟩

/-- The claim's tier cascade, literally: tier 3 additionally requires K ≥ 3,
and "contrary" reads as a known signal of the opposite direction. -/
def claimConfluenceTier (v f m fc : Signal) : ℕ :=
  let known := [v, f, m, fc].filter isKnownSig
  let K := known.length
  let strongBuy := (known.filter (fun s => s == Signal.strong_buy)).length
  let strongSell := (known.filter (fun s => s == Signal.strong_sell)).length
  let buySide := (known.filter isBuySig).length
  let sellSide := (known.filter isSellSig).length
  if 3 ≤ K ∧ (strongBuy = K ∨ strongSell = K) then 5
  else if 3 ≤ K ∧ (buySide = K ∨ sellSide = K) then 4
  else if 3 ≤ K ∧ ((2 ≤ strongBuy ∧ sellSide ≤ 1) ∨ (2 ≤ strongSell ∧ buySide ≤ 1)) then 3
  else if strongBuy + strongSell = 1
      ∧ (strongBuy = 1 → sellSide = 0) ∧ (strongSell = 1 → buySide = 0) then 2
  else 1

/-- The amended tier cascade: as the claim, except that tier 3 carries no
`K ≥ 3` requirement and tolerates at most one known signal outside the strong
direction (neutral included), which is what the source implements. -/
def amendedConfluenceTier (v f m fc : Signal) : ℕ :=
  let known := [v, f, m, fc].filter isKnownSig
  let K := known.length
  let strongBuy := (known.filter (fun s => s == Signal.strong_buy)).length
  let strongSell := (known.filter (fun s => s == Signal.strong_sell)).length
  let buySide := (known.filter isBuySig).length
  let sellSide := (known.filter isSellSig).length
  let nonBuy := (known.filter (fun s => !(isBuySig s))).length
  let nonSell := (known.filter (fun s => !(isSellSig s))).length
  if 3 ≤ K ∧ (strongBuy = K ∨ strongSell = K) then 5
  else if 3 ≤ K ∧ (buySide = K ∨ sellSide = K) then 4
  else if (2 ≤ strongBuy ∧ nonBuy ≤ 1) ∨ (2 ≤ strongSell ∧ nonSell ≤ 1) then 3
  else if strongBuy + strongSell = 1
      ∧ (strongBuy = 1 → sellSide = 0) ∧ (strongSell = 1 → buySide = 0) then 2
  else 1

theorem confluenceTier_eq_amended (v f m fc : Signal) :
    (confluenceTierDir v f m fc).1 = amendedConfluenceTier v f m fc := by
  revert v f m fc
  decide

/-- C4: counterexample.  With value and flow both scored 80 (two `strong_buy`
signals, `K = 2`) and the other axes unknown, the code returns tier 3, while
the claim's cascade — whose tier 3 requires `K ≥ 3` and whose tier 2 requires
exactly one strong signal — yields tier 1. -/
theorem c4_counterexample :
    classify_signal (some (80:ℝ)) = .strong_buy ∧
    (detect_confluence (some 80) (some 80) none none).confluence_tier = 3 ∧
    claimConfluenceTier .strong_buy .strong_buy .unknown .unknown = 1 := by
  have hsig : classify_signal (some (80:ℝ)) = .strong_buy := by
    show (if (75:ℝ) ≤ 80 then Signal.strong_buy
      else if (60:ℝ) ≤ 80 then Signal.buy
      else if (40:ℝ) ≤ 80 then Signal.neutral
      else if (25:ℝ) ≤ 80 then Signal.sell
      else Signal.strong_sell) = Signal.strong_buy
    rw [if_pos (by norm_num)]
  refine ⟨hsig, ?_, by decide⟩
  show (confluenceTierDir (classify_signal (some 80)) (classify_signal (some 80))
    (classify_signal none) (classify_signal none)).1 = 3
  rw [hsig, show classify_signal none = .unknown from rfl]
  decide

/-- C4 amended: for every tuple of sub-scores, the confluence tier follows the
claim's cascade except that tier 3 does not require K ≥ 3 and counts as
"contrary" any known signal outside the strong direction (neutral included):
T5 all K strong in one direction with K≥3; T4 all K on one side with K≥3;
T3 ≥2 strong in one direction and at most one known signal not on that side;
T2 exactly one strong signal with no opposite-side signal; else T1. -/
theorem c4_confluence_tier (v f m fc : Option ℝ) :
    (detect_confluence v f m fc).confluence_tier =
      amendedConfluenceTier (classify_signal v) (classify_signal f)
        (classify_signal m) (classify_signal fc) := by
  show (confluenceTierDir _ _ _ _).1 = _
  exact confluenceTier_eq_amended _ _ _ _

/-! ## C10 — Safety-margin normaliser bounds -/

theorem sigmoid_bounds (t : ℝ) : 0 < 100 / (1 + Real.exp t) ∧ 100 / (1 + Real.exp t) < 100 := by
  have he := Real.exp_pos t
  have h0 : (0:ℝ) < 1 + Real.exp t := by linarith
  constructor
  · positivity
  · rw [div_lt_iff h0]
    nlinarith

theorem roundTo2_mem (x : ℝ) (h1 : 0 < x) (h2 : x < 100) :
    0 ≤ roundTo x 2 ∧ roundTo x 2 ≤ 100 := by
  have hb := roundHalfEven_sub_le (x * 10 ^ 2)
  rw [abs_le] at hb
  have hr1 : (roundHalfEven (x * 10 ^ 2) : ℝ) ≥ x * 10 ^ 2 - 1/2 := by linarith [hb.1]
  have hr2 : (roundHalfEven (x * 10 ^ 2) : ℝ) ≤ x * 10 ^ 2 + 1/2 := by linarith [hb.2]
  have hx1 : (0:ℝ) < x * 10 ^ 2 := by positivity
  have hx2 : x * 10 ^ 2 < 10000 := by
    have hp : (10:ℝ) ^ 2 = 100 := by norm_num
    rw [hp]
    linarith
  have hge : (0:ℤ) ≤ roundHalfEven (x * 10 ^ 2) := by
    have hm1 : (-1:ℝ) < x * 10 ^ 2 - 1/2 := by linarith
    have h3 : (-1:ℝ) < (roundHalfEven (x * 10 ^ 2) : ℝ) := lt_of_lt_of_le hm1 hr1
    have h4 : (-1:ℤ) < roundHalfEven (x * 10 ^ 2) := by exact_mod_cast h3
    omega
  have hle : roundHalfEven (x * 10 ^ 2) ≤ 10000 := by
    have hm2 : x * 10 ^ 2 + 1/2 < 10001 := by linarith
    have h3 : (roundHalfEven (x * 10 ^ 2) : ℝ) < 10001 := lt_of_le_of_lt hr2 hm2
    have h4 : roundHalfEven (x * 10 ^ 2) < 10001 := by exact_mod_cast h3
    omega
  unfold roundTo
  constructor
  · apply div_nonneg _ (by positivity)
    exact_mod_cast hge
  · rw [div_le_iff (by positivity)]
    calc (roundHalfEven (x * 10 ^ 2) : ℝ) ≤ 10000 := by exact_mod_cast hle
      _ = 100 * 10 ^ 2 := by norm_num

theorem exp_twenty_large : (20000:ℝ) < Real.exp 20 := by
  have h1 : (2.7:ℝ) < Real.exp 1 := lt_trans (by norm_num) Real.exp_one_gt_d9
  have h2 : (2.7:ℝ) ^ (20:ℕ) < (Real.exp 1) ^ (20:ℕ) :=
    pow_lt_pow_left h1 (by norm_num) (by norm_num)
  have h3 : (Real.exp 1) ^ (20:ℕ) = Real.exp 20 := by
    rw [← Real.exp_nat_mul]
    norm_num
  have h4 : (20000:ℝ) < (2.7:ℝ) ^ (20:ℕ) := by norm_num
  linarith

/-- C10: counterexample.  At margin `+500` the clamp leaves 500, the sigmoid
value is `100/(1+e⁻²⁰) ≈ 99.99999979`, and rounding to 2 decimal places
returns exactly `100.0` — not a value strictly below 100. -/
theorem c10_counterexample : normalize_safety_margin (some 500) = 100 := by
  show roundTo (100 / (1 + Real.exp (-(max (-500) (min (500:ℝ) 500)) / 25))) 2 = 100
  rw [show -(max (-500) (min (500:ℝ) 500)) / 25 = -20 by
    rw [min_self, max_eq_right (by norm_num : (-500:ℝ) ≤ 500)]
    norm_num]
  have hEpos := Real.exp_pos (-20:ℝ)
  have hEsmall : Real.exp (-20:ℝ) < 1/20000 := by
    rw [Real.exp_neg]
    rw [inv_lt_comm₀ (Real.exp_pos 20) (by norm_num)]
    calc (1/20000:ℝ)⁻¹ = 20000 := by norm_num
      _ < Real.exp 20 := exp_twenty_large
  have hden : (0:ℝ) < 1 + Real.exp (-20:ℝ) := by linarith
  have hygt : (99.995:ℝ) < 100 / (1 + Real.exp (-20:ℝ)) := by
    rw [lt_div_iff hden]
    nlinarith
  have hylt : 100 / (1 + Real.exp (-20:ℝ)) < 100 := (sigmoid_bounds _).2
  rw [roundTo_eq _ 2 10000 (by push_cast; nlinarith) (by push_cast; nlinarith)]
  norm_num

/-- C10 amended: the normaliser is total: `None` maps to exactly 50.0; for
every finite margin the clamp to `[-500, 500]` keeps the sigmoid argument
bounded (no overflow) and the sigmoid value is strictly between 0 and 100,
but after the final 2-dp rounding the returned value lies in the closed
interval `[0, 100]` and attains its endpoints for extreme margins; a ticker
with an F-Score, a missing margin and completeness `c` gets value sub-score
`round((0.55·norm_fscore + 0.45·50)·min(c,1), 2)`. -/
theorem c10_safety_margin_total :
    normalize_safety_margin none = 50 ∧
    (∀ v : ℝ, 0 < 100 / (1 + Real.exp (-(max (-500) (min v 500)) / 25)) ∧
      100 / (1 + Real.exp (-(max (-500) (min v 500)) / 25)) < 100) ∧
    (∀ m : Option ℝ, 0 ≤ normalize_safety_margin m ∧ normalize_safety_margin m ≤ 100) ∧
    (∀ fv : ℤ, ∀ c : ℝ,
      (compute_composite_score (some ⟨some fv, none, some c⟩) none none none 0 none
        none).value_score
        = some (roundTo ((0.55 * normalize_fscore fv 9 + 0.45 * 50) * min c 1) 2)) := by
  refine ⟨rfl, fun v => sigmoid_bounds _, fun m => ?_, fun fv c => ?_⟩
  · match m with
    | none =>
      constructor <;> norm_num [normalize_safety_margin]
    | some v =>
      have hb := sigmoid_bounds (-(max (-500) (min v 500)) / 25)
      exact roundTo2_mem _ hb.1 hb.2
  · simp only [compute_composite_score, value_score_of, flow_score_of, momentum_score_of,
      forecast_score_of, sentiment_score_of, Option.isSome, Option.getD, axesCount,
      normalize_safety_margin]
    norm_num

/-! ## C6 — Composite row emission (`analysis/compute.py`, `AnalysisComputer.run`)

The composite loop of `run` reads the per-ticker lookup dicts and appends one
row per ticker unless `not any([quant_d, whale_d, trend_d])` — the simulation
and sentiment lookups are consulted only after that gate.  The persisted row
also carries confluence/classification columns, all pure functions of the
score result; the embedding keeps the ticker and the score result. -/

/-- Embedding of the composite-scoring loop of `AnalysisComputer.run`:
for each ticker, skip when none of the quant/whale/trend rows exists,
otherwise emit `(ticker, compute_composite_score(...))` with the ticker's
sector-flow bonus and sentiment lookup. -/
noncomputable def composite_rows (tickers : List String)
    (quant_lookup : String → Option QuantData)
    (whale_lookup : String → Option WhaleData)
    (trend_lookup : String → Option TrendData)
    (simulation_lookup : String → Option SimulationData)
    (sentiment_lookup : String → Option SentimentData)
    (sector_flow_bonus_lookup : String → ℝ) :
    List (String × CompositeResult) :=
  tickers.filterMap (fun t =>
    if (quant_lookup t).isNone ∧ (whale_lookup t).isNone ∧ (trend_lookup t).isNone then
      none
    else
      some (t, compute_composite_score (quant_lookup t) (whale_lookup t) (trend_lookup t)
        (simulation_lookup t) (sector_flow_bonus_lookup t) none (sentiment_lookup t)))

/-- A sample ticker identifier. -/
def tickerA : String := "005930"

/-- C6: counterexample.  A ticker whose only data is a simulation row (so its
forecast sub-score exists and `axes_available = 1`) is skipped by the loop:
the emitted row list is empty, contradicting the claim that such a ticker
still receives a composite row. -/
theorem c6_counterexample :
    composite_rows [tickerA] (fun _ => none) (fun _ => none) (fun _ => none)
      (fun _ => some ⟨some 50⟩) (fun _ => none) (fun _ => 0) = [] ∧
    (compute_composite_score none none none (some ⟨some 50⟩) 0 none
      none).axes_available = 1 := by
  constructor
  · simp [composite_rows]
  · simp only [compute_composite_score, value_score_of, flow_score_of, momentum_score_of,
      forecast_score_of, sentiment_score_of, Option.isSome, Option.getD, axesCount]
    norm_num

/-- C6 amended: the composite loop emits a row for a ticker exactly when at
least one of its quant, whale or trend rows exists; a ticker whose only data
is the simulation or sentiment axis is skipped (and a ticker with, say, a
quant row but no usable sub-score still gets a row). -/
theorem c6_composite_row_emission (tickers : List String)
    (quant_lookup : String → Option QuantData)
    (whale_lookup : String → Option WhaleData)
    (trend_lookup : String → Option TrendData)
    (simulation_lookup : String → Option SimulationData)
    (sentiment_lookup : String → Option SentimentData)
    (sector_flow_bonus_lookup : String → ℝ) :
    (composite_rows tickers quant_lookup whale_lookup trend_lookup simulation_lookup
        sentiment_lookup sector_flow_bonus_lookup).map Prod.fst =
      tickers.filter (fun t =>
        (quant_lookup t).isSome || (whale_lookup t).isSome || (trend_lookup t).isSome) := by
  induction tickers with
  | nil => rfl
  | cons h tl ih =>
    simp only [composite_rows] at ih ⊢
    simp only [List.filterMap_cons, List.filter_cons]
    cases hquant : quant_lookup h <;> cases hwhale : whale_lookup h <;>
      cases htrend : trend_lookup h <;> simp_all

/-! ## C5 — Volatility and risk level (`analysis/risk.py`, `compute_volatility`)

The source computes daily *simple* returns `(p[i] - p[i-1]) / p[i-1]` (skipping
pairs whose previous price is non-positive), takes the sample standard
deviation (`np.std(..., ddof=1)`) of the last `period` returns, annualises by
`sqrt(252) * 100` and rounds to 4 dp; the `periods` argument is its default
`(20, 60, 252)` at every call site and is baked in here. -/

/-- Daily simple returns of `compute_volatility`: for each adjacent pair with
positive previous price, `(p[i] - p[i-1]) / p[i-1]`. -/
def dailyReturns : List ℚ → List ℚ
  | [] => []
  | [_] => []
  | a :: b :: rest => (if 0 < a then [(b - a) / a] else []) ++ dailyReturns (b :: rest)

/-- Arithmetic mean of a rational list (`np.mean`). -/
def listMeanQ (l : List ℚ) : ℚ := l.sum / l.length

/-- Sample variance with `ddof=1` (`np.std(..., ddof=1) ** 2`); `0` on lists
too short for the estimator (the source never reaches that case: windows have
at least 20 entries). -/
def sampleVarQ (l : List ℚ) : ℚ :=
  if l.length ≤ 1 then 0
  else (l.map (fun x => (x - listMeanQ l) ^ 2)).sum / ((l.length : ℚ) - 1)

/-- Python's `l[-p:]`: the last `p` elements. -/
def lastN {α : Type} (p : ℕ) (l : List α) : List α := l.drop (l.length - p)

/-- Elementwise embedding of a rational list into the reals. -/
def castListQ (l : List ℚ) : List ℝ := l.map (fun q : ℚ => (q : ℝ))

/-- Arithmetic mean of a real list. -/
noncomputable def listMeanR (l : List ℝ) : ℝ := l.sum / l.length

/-- Sample variance with `ddof=1` over the reals. -/
noncomputable def sampleVarR (l : List ℝ) : ℝ :=
  if l.length ≤ 1 then 0
  else (l.map (fun x => (x - listMeanR l) ^ 2)).sum / ((l.length : ℝ) - 1)

/-- Sample standard deviation with `ddof=1` over the reals. -/
noncomputable def sampleStdR (l : List ℝ) : ℝ := Real.sqrt (sampleVarR l)

/-- One window of `compute_volatility`:
`round(std(window, ddof=1) * sqrt(252) * 100, 4)`. -/
noncomputable def annualizedVol (window : List ℚ) : ℝ :=
  roundTo (Real.sqrt ((sampleVarQ window : ℚ) : ℝ) * Real.sqrt 252 * 100) 4

/-- Risk classification labels of `compute_volatility`. -/
inductive RiskLevel
  | low
  | medium
  | high
  | very_high
  | unknown
deriving DecidableEq, Repr

/-- Result record of `compute_volatility` (Korean labels elided). -/
structure VolatilityResult where
  volatility_20d : Option ℝ
  volatility_60d : Option ℝ
  volatility_1y : Option ℝ
  risk_level : RiskLevel

/-- Embedding of `compute_volatility(prices)` with its default periods
`(20, 60, 252)`: early exit on fewer than 2 prices or no computable returns;
per-window annualised volatility when the window fits; risk level classified
from the 60-day number at the 20/40/60 thresholds. -/
noncomputable def compute_volatility (prices : List ℚ) : VolatilityResult :=
  if prices.length < 2 then ⟨none, none, none, .unknown⟩
  else
    let returns := dailyReturns prices
    if returns.isEmpty then ⟨none, none, none, .unknown⟩
    else
      let vol20 := if 20 ≤ returns.length then some (annualizedVol (lastN 20 returns)) else none
      let vol60 := if 60 ≤ returns.length then some (annualizedVol (lastN 60 returns)) else none
      let vol1y := if 252 ≤ returns.length then some (annualizedVol (lastN 252 returns)) else none
      let risk := match vol60 with
        | none => RiskLevel.unknown
        | some v =>
          if v < 20 then RiskLevel.low
          else if v < 40 then RiskLevel.medium
          else if v < 60 then RiskLevel.high
          else RiskLevel.very_high
      ⟨vol20, vol60, vol1y, risk⟩

/-- Daily log-returns of a price series, as the claim reads them. -/
noncomputable def logReturns (prices : List ℚ) : List ℝ :=
  List.zipWith (fun a b => Real.log ((b : ℚ) / (a : ℚ) : ℚ)) prices prices.tail

/-- The claim's volatility formula: standard deviation of the window's daily
log-returns times `sqrt(252) * 100` (no rounding in the claim). -/
noncomputable def specLogVol (prices : List ℚ) (p : ℕ) : ℝ :=
  sampleStdR (lastN p (logReturns prices)) * Real.sqrt 252 * 100

/-- The amended volatility formula: 4-dp rounding of the standard deviation of
the window's daily *simple* returns times `sqrt(252) * 100`. -/
noncomputable def specSimpleVol (prices : List ℚ) (p : ℕ) : ℝ :=
  roundTo (sampleStdR (castListQ (lastN p (dailyReturns prices)))
    * Real.sqrt 252 * 100) 4

/-- The spec's risk classification from a 60-day volatility value. -/
noncomputable def specRiskClass (v : ℝ) : RiskLevel :=
  if v < 20 then .low
  else if v < 40 then .medium
  else if v < 60 then .high
  else .very_high

theorem list_sum_cast (l : List ℚ) :
    ((l.sum : ℚ) : ℝ) = (castListQ l).sum := by
  induction l with
  | nil => simp [castListQ]
  | cons h t ih =>
    simp [castListQ] at ih ⊢

theorem sampleVar_cast (l : List ℚ) :
    sampleVarR (castListQ l) = ((sampleVarQ l : ℚ) : ℝ) := by
  have hlen : (castListQ l).length = l.length := List.length_map _ _
  have hmean : listMeanR (castListQ l) = ((listMeanQ l : ℚ) : ℝ) := by
    unfold listMeanR listMeanQ
    rw [hlen, ← list_sum_cast, Rat.cast_div, Rat.cast_natCast]
  by_cases h : l.length ≤ 1
  · unfold sampleVarR sampleVarQ
    rw [hlen, if_pos h, if_pos h]
    norm_num
  · unfold sampleVarR sampleVarQ
    rw [hlen, if_neg h, if_neg h, hmean]
    unfold castListQ
    rw [List.map_map]
    rw [show ((fun x : ℝ => (x - ((listMeanQ l : ℚ) : ℝ)) ^ 2) ∘ fun q : ℚ => (q : ℝ))
        = fun q : ℚ => (((q - listMeanQ l) ^ 2 : ℚ) : ℝ) from by
      funext q
      simp only [Function.comp_apply]
      push_cast
      ring]
    rw [show (l.map fun q : ℚ => (((q - listMeanQ l) ^ 2 : ℚ) : ℝ))
        = castListQ (l.map fun x : ℚ => (x - listMeanQ l) ^ 2) from by
      unfold castListQ
      rw [List.map_map]
      rfl]
    rw [← list_sum_cast, Rat.cast_div, Rat.cast_sub, Rat.cast_natCast, Rat.cast_one]

theorem annualizedVol_eq (w : List ℚ) :
    annualizedVol w = roundTo (sampleStdR (castListQ w)
      * Real.sqrt 252 * 100) 4 := by
  unfold annualizedVol sampleStdR
  rw [sampleVar_cast]

theorem compute_volatility_unfold (prices : List ℚ) (h2 : 2 ≤ prices.length)
    (hret : dailyReturns prices ≠ []) :
    compute_volatility prices =
      ⟨if 20 ≤ (dailyReturns prices).length
          then some (annualizedVol (lastN 20 (dailyReturns prices))) else none,
       if 60 ≤ (dailyReturns prices).length
          then some (annualizedVol (lastN 60 (dailyReturns prices))) else none,
       if 252 ≤ (dailyReturns prices).length
          then some (annualizedVol (lastN 252 (dailyReturns prices))) else none,
       match (if 60 ≤ (dailyReturns prices).length
          then some (annualizedVol (lastN 60 (dailyReturns prices))) else none) with
       | none => RiskLevel.unknown
       | some v =>
         if v < 20 then RiskLevel.low
         else if v < 40 then RiskLevel.medium
         else if v < 60 then RiskLevel.high
         else RiskLevel.very_high⟩ := by
  unfold compute_volatility
  rw [if_neg (by omega), if_neg (by simpa [List.isEmpty_iff] using hret)]

/-- C5 amended: for every price series with at least two prices and at least
one computable return, each window's annualised volatility is the 4-dp
rounding of the sample standard deviation (ddof = 1) of the window's daily
*simple* returns — not log-returns — times `sqrt(252) * 100`, and when the
60-day window fits, the risk level is classified low/medium/high/very-high at
the 20/40/60 thresholds applied to the 60-day number. -/
theorem c5_volatility (prices : List ℚ) (h2 : 2 ≤ prices.length)
    (hret : dailyReturns prices ≠ []) :
    (20 ≤ (dailyReturns prices).length →
      (compute_volatility prices).volatility_20d = some (specSimpleVol prices 20)) ∧
    (60 ≤ (dailyReturns prices).length →
      (compute_volatility prices).volatility_60d = some (specSimpleVol prices 60)) ∧
    (252 ≤ (dailyReturns prices).length →
      (compute_volatility prices).volatility_1y = some (specSimpleVol prices 252)) ∧
    (60 ≤ (dailyReturns prices).length →
      (compute_volatility prices).risk_level = specRiskClass (specSimpleVol prices 60)) := by
  rw [compute_volatility_unfold prices h2 hret]
  refine ⟨fun h20 => ?_, fun h60 => ?_, fun h252 => ?_, fun h60 => ?_⟩
  · show (if 20 ≤ (dailyReturns prices).length then _ else _) = _
    rw [if_pos h20, annualizedVol_eq]
    rfl
  · show (if 60 ≤ (dailyReturns prices).length then _ else _) = _
    rw [if_pos h60, annualizedVol_eq]
    rfl
  · show (if 252 ≤ (dailyReturns prices).length then _ else _) = _
    rw [if_pos h252, annualizedVol_eq]
    rfl
  · show (match (if 60 ≤ (dailyReturns prices).length
        then some (annualizedVol (lastN 60 (dailyReturns prices))) else none) with
      | none => RiskLevel.unknown
      | some v =>
        if v < 20 then RiskLevel.low
        else if v < 40 then RiskLevel.medium
        else if v < 60 then RiskLevel.high
        else RiskLevel.very_high) = _
    rw [if_pos h60]
    show (if annualizedVol (lastN 60 (dailyReturns prices)) < 20 then RiskLevel.low
      else if annualizedVol (lastN 60 (dailyReturns prices)) < 40 then RiskLevel.medium
      else if annualizedVol (lastN 60 (dailyReturns prices)) < 60 then RiskLevel.high
      else RiskLevel.very_high) = _
    rw [annualizedVol_eq]
    rfl

/-- A 21-day price series: twenty closes at 100 followed by one at 200. -/
def pricesC5 : List ℚ :=
  [100, 100, 100, 100, 100, 100, 100, 100, 100, 100,
   100, 100, 100, 100, 100, 100, 100, 100, 100, 100, 200]

theorem pricesC5_returns : dailyReturns pricesC5 =
    [0, 0, 0, 0, 0, 0, 0, 0, 0, 0, 0, 0, 0, 0, 0, 0, 0, 0, 0, 1] := by
  norm_num [pricesC5, dailyReturns]

/-- C5: counterexample.  On `pricesC5` the 20-day window volatility is
`round(sqrt(1/20) * sqrt(252) * 100, 4) ≈ 354.96`, computed from *simple*
returns; the claim's formula over the window's *log*-returns evaluates to
`ln 2 / sqrt 20 * sqrt 252 * 100 < 247`, so the two differ. -/
theorem c5_counterexample :
    (compute_volatility pricesC5).volatility_20d
      = some (roundTo (Real.sqrt ((1:ℝ)/20) * Real.sqrt 252 * 100) 4) ∧
    (compute_volatility pricesC5).volatility_20d ≠ some (specLogVol pricesC5 20) := by
  have hretne : dailyReturns pricesC5 ≠ [] := by rw [pricesC5_returns]; simp
  have hlen : (dailyReturns pricesC5).length = 20 := by rw [pricesC5_returns]; rfl
  have hlast : lastN 20 (dailyReturns pricesC5) = dailyReturns pricesC5 := by
    unfold lastN
    rw [hlen]
    simp
  have hvarQ : sampleVarQ (dailyReturns pricesC5) = 1/20 := by
    rw [pricesC5_returns]
    norm_num [sampleVarQ, listMeanQ]
  have hcode : (compute_volatility pricesC5).volatility_20d
      = some (annualizedVol (dailyReturns pricesC5)) := by
    rw [compute_volatility_unfold pricesC5 (by norm_num [pricesC5]) hretne]
    show (if 20 ≤ (dailyReturns pricesC5).length
        then some (annualizedVol (lastN 20 (dailyReturns pricesC5))) else none) = _
    rw [if_pos (by rw [hlen]), hlast]
  have hval : annualizedVol (dailyReturns pricesC5)
      = roundTo (Real.sqrt ((1:ℝ)/20) * Real.sqrt 252 * 100) 4 := by
    unfold annualizedVol
    rw [hvarQ]
    norm_num
  -- numeric bounds on the code value
  have hmerge : Real.sqrt ((1:ℝ)/20) * Real.sqrt 252 = Real.sqrt (63/5) := by
    rw [← Real.sqrt_mul (by norm_num : (0:ℝ) ≤ 1/20)]
    norm_num
  have hs_lo : (3.5496:ℝ) < Real.sqrt (63/5) := by
    rw [Real.lt_sqrt (by norm_num)]
    norm_num
  have hs_hi : Real.sqrt (63/5) < 3.5497 := by
    rw [Real.sqrt_lt' (by norm_num)]
    norm_num
  have hX_lo : (354.96:ℝ) < Real.sqrt ((1:ℝ)/20) * Real.sqrt 252 * 100 := by
    rw [hmerge]
    nlinarith
  have hround := roundTo_sub_le (Real.sqrt ((1:ℝ)/20) * Real.sqrt 252 * 100) 4
  rw [abs_le] at hround
  have hcode_lo : (354.9:ℝ) < roundTo (Real.sqrt ((1:ℝ)/20) * Real.sqrt 252 * 100) 4 := by
    have h1 := hround.1
    norm_num at h1
    linarith
  -- the claim's log-return value
  have hlog : logReturns pricesC5 =
      [0, 0, 0, 0, 0, 0, 0, 0, 0, 0, 0, 0, 0, 0, 0, 0, 0, 0, 0, Real.log 2] := by
    norm_num [logReturns, pricesC5, Real.log_one]
  have hlast2 : lastN 20 (logReturns pricesC5) = logReturns pricesC5 := by
    unfold lastN
    rw [hlog]
    simp
  have hL0 : (0:ℝ) ≤ Real.log 2 := Real.log_nonneg (by norm_num)
  have hL1 : Real.log 2 < 0.6932 := lt_trans Real.log_two_lt_d9 (by norm_num)
  have hmeanR : listMeanR
      [0, 0, 0, 0, 0, 0, 0, 0, 0, 0, 0, 0, 0, 0, 0, 0, 0, 0, 0, Real.log 2]
      = Real.log 2 / 20 := by
    norm_num [listMeanR]
  have hvarR : sampleVarR
      [0, 0, 0, 0, 0, 0, 0, 0, 0, 0, 0, 0, 0, 0, 0, 0, 0, 0, 0, Real.log 2]
      = (Real.log 2) ^ 2 / 20 := by
    rw [sampleVarR, if_neg (by norm_num), hmeanR]
    norm_num
    ring
  have hspec : specLogVol pricesC5 20 = Real.log 2 * Real.sqrt (63/5) * 100 := by
    unfold specLogVol sampleStdR
    rw [hlast2, hlog, hvarR]
    rw [show (Real.log 2) ^ 2 / 20 = (Real.log 2) ^ 2 * (1/20) by ring]
    rw [Real.sqrt_mul (sq_nonneg _), Real.sqrt_sq_eq_abs, abs_of_nonneg hL0]
    rw [mul_assoc (Real.log 2), hmerge]
  have hspec_hi : specLogVol pricesC5 20 < 247 := by
    rw [hspec]
    nlinarith [Real.sqrt_nonneg ((63:ℝ)/5)]
  refine ⟨by rw [hcode, hval], ?_⟩
  rw [hcode, hval]
  intro heq
  have h2 := Option.some.inj heq
  rw [h2] at hcode_lo
  linarith

/-- C5 amended, witness: the theorem instantiated on `pricesC5` (20 returns,
so the 20-day conjunct is active and the 60/252-day ones are vacuous). -/
theorem c5_volatility_witness :
    (2 ≤ pricesC5.length) ∧ (dailyReturns pricesC5 ≠ []) ∧
    ((20 ≤ (dailyReturns pricesC5).length →
      (compute_volatility pricesC5).volatility_20d = some (specSimpleVol pricesC5 20)) ∧
    (60 ≤ (dailyReturns pricesC5).length →
      (compute_volatility pricesC5).volatility_60d = some (specSimpleVol pricesC5 60)) ∧
    (252 ≤ (dailyReturns pricesC5).length →
      (compute_volatility pricesC5).volatility_1y = some (specSimpleVol pricesC5 252)) ∧
    (60 ≤ (dailyReturns pricesC5).length →
      (compute_volatility pricesC5).risk_level = specRiskClass (specSimpleVol pricesC5 60))) :=
  ⟨by norm_num [pricesC5], by rw [pricesC5_returns]; simp,
    c5_volatility pricesC5 (by norm_num [pricesC5]) (by rw [pricesC5_returns]; simp)⟩

/-! ## C7 — Simulation score (`analysis/simulation.py`, `compute_simulation_score`)

The source reads the 6-month (126-day) and 3-month (63-day) horizon entries
(`.get(126) or .get("126")` — int and string keys are alternatives for the
same entry, merged into one optional field here), returns nulls when either
entry or any of the three required statistics is missing, and otherwise
combines the sigmoid-normalised components, clips to `[0, 100]` (`np.clip`)
and rounds to 2 dp. -/

/-- One horizon's statistics as read by the scorer (other entries elided). -/
structure HorizonStats where
  expected_return_pct : Option ℝ
  upside_prob : Option ℝ
  var_5pct_pct : Option ℝ

/-- The `horizons_result` mapping, restricted to the two keys the scorer
reads. -/
structure HorizonsResult where
  h63 : Option HorizonStats
  h126 : Option HorizonStats

/-- Qualitative grades of the simulation score. -/
inductive SimGrade
  | positive
  | neutral_positive
  | neutral
  | negative
deriving DecidableEq, Repr

/-- Result of `compute_simulation_score`. -/
structure SimScoreResult where
  score : Option ℝ
  grade : Option SimGrade

/-- Embedding of `_normalize_return(value, center, scale)`:
`100 / (1 + exp(-(value - center) / scale))`. -/
noncomputable def normalize_return (value center scale : ℝ) : ℝ :=
  100 / (1 + Real.exp (-(value - center) / scale))

/-- Embedding of `_normalize_var(value, center, scale)`: the same sigmoid. -/
noncomputable def normalize_var (value center scale : ℝ) : ℝ :=
  100 / (1 + Real.exp (-(value - center) / scale))

/-- Embedding of `compute_simulation_score(horizons_result)`. -/
noncomputable def compute_simulation_score (hr : HorizonsResult) : SimScoreResult :=
  match hr.h126, hr.h63 with
  | none, _ => ⟨none, none⟩
  | _, none => ⟨none, none⟩
  | some s126, some s63 =>
    match s126.expected_return_pct, s63.upside_prob, s63.var_5pct_pct with
    | some ret, some up, some var =>
      let norm_return := normalize_return ret 0 20
      let norm_upside := up * 100
      let norm_var := normalize_var var (-15) 10
      let score0 := 0.40 * norm_return + 0.35 * norm_upside + 0.25 * norm_var
      let score := roundTo (min (max score0 0) 100) 2
      let grade := if 70 ≤ score then SimGrade.positive
        else if 50 ≤ score then SimGrade.neutral_positive
        else if 30 ≤ score then SimGrade.neutral
        else SimGrade.negative
      ⟨some score, some grade⟩
    | _, _, _ => ⟨none, none⟩

/-- The claim's score formula read literally from the spec:
`0.40·S(return_6m; 0, 20) + 0.35·(upside_prob·100) + 0.25·S(−var_5pct; −15, 10)`
clipped to `[0, 100]` — note the sigmoid applied to `−var`. -/
noncomputable def simSpecScore (ret up var : ℝ) : ℝ :=
  min (max (0.40 * (100 / (1 + Real.exp (-(ret - 0) / 20)))
    + 0.35 * (up * 100)
    + 0.25 * (100 / (1 + Real.exp (-((-var) - (-15)) / 10)))) 0) 100

/-- The amended score formula: the sigmoid is applied to `var_5pct` itself
(centre −15, scale 10), then clip and 2-dp rounding. -/
noncomputable def amendedSimScore (ret up var : ℝ) : ℝ :=
  roundTo (min (max (0.40 * (100 / (1 + Real.exp (-(ret - 0) / 20)))
    + 0.35 * (up * 100)
    + 0.25 * (100 / (1 + Real.exp (-(var - (-15)) / 10)))) 0) 100) 2

/-- The grade thresholds at 70/50/30 applied to the rounded score. -/
noncomputable def simGradeSpec (s : ℝ) : SimGrade :=
  if 70 ≤ s then .positive
  else if 50 ≤ s then .neutral_positive
  else if 30 ≤ s then .neutral
  else .negative

set_option maxHeartbeats 1000000 in
/-- C7: counterexample, two parts.  (a) With both horizons present but the
3-month `upside_prob` missing, the scorer still returns nulls, so "nulls
exactly when a horizon is missing" fails.  (b) At
`(return_6m, upside_prob, var_5pct) = (0, 1/2, −35)` the code's score (the
sigmoid applied to `var` itself, ≈ 40.48) differs from the spec's formula
`0.25·S(−var_5pct; −15, 10)` (≈ 62.3). -/
theorem c7_counterexample :
    (compute_simulation_score ⟨some ⟨none, none, some (-10)⟩,
      some ⟨some 10, none, none⟩⟩).score = none ∧
    (some (⟨none, none, some (-10)⟩ : HorizonStats) ≠ none ∧
      some (⟨some 10, none, none⟩ : HorizonStats) ≠ none) ∧
    (compute_simulation_score ⟨some ⟨none, some (1/2), some (-35)⟩,
      some ⟨some 0, none, none⟩⟩).score ≠ some (simSpecScore 0 (1/2) (-35)) := by
  refine ⟨by simp [compute_simulation_score], ⟨by simp, by simp⟩, ?_⟩
  have he1lo : (2.7182818283:ℝ) < Real.exp 1 := Real.exp_one_gt_d9
  have he1hi : Real.exp 1 < 2.7182818286 := Real.exp_one_lt_d9
  have he1pos : (0:ℝ) < Real.exp 1 := Real.exp_pos 1
  have hexp2 : Real.exp 2 = Real.exp 1 ^ (2:ℕ) := by
    rw [← Real.exp_nat_mul]
    norm_num
  have he2lo : (7.389:ℝ) < Real.exp 2 := by
    rw [hexp2]
    nlinarith
  have he2hi : Real.exp 2 < 7.39 := by
    rw [hexp2]
    nlinarith
  have hnr : normalize_return 0 0 20 = 50 := by
    unfold normalize_return
    rw [show (-((0:ℝ) - 0) / 20) = 0 by norm_num, Real.exp_zero]
    norm_num
  have hnv : normalize_var (-35) (-15) 10 = 100 / (1 + Real.exp 2) := by
    unfold normalize_var
    rw [show (-((-35:ℝ) - (-15)) / 10) = 2 by norm_num]
  have hd : (0:ℝ) < 1 + Real.exp 2 := by positivity
  have hnv_lo : (11.9:ℝ) < normalize_var (-35) (-15) 10 := by
    rw [hnv, lt_div_iff hd]
    nlinarith
  have hnv_hi : normalize_var (-35) (-15) 10 < 12 := by
    rw [hnv, div_lt_iff hd]
    nlinarith
  have hinner_lo : (40.4:ℝ) < 0.40 * normalize_return 0 0 20
      + 0.35 * ((1/2) * 100) + 0.25 * normalize_var (-35) (-15) 10 := by
    rw [hnr]
    nlinarith
  have hinner_hi : 0.40 * normalize_return 0 0 20
      + 0.35 * ((1/2) * 100) + 0.25 * normalize_var (-35) (-15) 10 < 40.6 := by
    rw [hnr]
    nlinarith
  have hclip : min (max (0.40 * normalize_return 0 0 20
      + 0.35 * ((1/2) * 100) + 0.25 * normalize_var (-35) (-15) 10) 0) 100
      = 0.40 * normalize_return 0 0 20
      + 0.35 * ((1/2) * 100) + 0.25 * normalize_var (-35) (-15) 10 := by
    rw [max_eq_left (by linarith), min_eq_left (by linarith)]
  have hcode : (compute_simulation_score ⟨some ⟨none, some (1/2), some (-35)⟩,
      some ⟨some 0, none, none⟩⟩).score
      = some (roundTo (min (max (0.40 * normalize_return 0 0 20
        + 0.35 * ((1/2) * 100) + 0.25 * normalize_var (-35) (-15) 10) 0) 100) 2) := rfl
  have hround := roundTo_sub_le (min (max (0.40 * normalize_return 0 0 20
    + 0.35 * ((1/2) * 100) + 0.25 * normalize_var (-35) (-15) 10) 0) 100) 2
  rw [abs_le] at hround
  have hscore_hi : roundTo (min (max (0.40 * normalize_return 0 0 20
      + 0.35 * ((1/2) * 100) + 0.25 * normalize_var (-35) (-15) 10) 0) 100) 2 < 41 := by
    have h2 := hround.2
    rw [hclip] at h2 ⊢
    norm_num at h2 ⊢
    linarith
  -- the spec formula's value exceeds 62
  have hexp5 : Real.exp 5 = Real.exp 1 ^ (5:ℕ) := by
    rw [← Real.exp_nat_mul]
    norm_num
  have he5 : (100:ℝ) < Real.exp 5 := by
    rw [hexp5]
    have h1 : (2.71:ℝ) ≤ Real.exp 1 := by linarith
    have h2 : (2.71:ℝ) ^ (5:ℕ) ≤ Real.exp 1 ^ (5:ℕ) := pow_le_pow_left (by norm_num) h1 5
    have h3 : (100:ℝ) < (2.71:ℝ) ^ (5:ℕ) := by norm_num
    linarith
  have he5inv : Real.exp (-5:ℝ) < 1/100 := by
    rw [Real.exp_neg, inv_lt_comm₀ (Real.exp_pos 5) (by norm_num)]
    calc ((1:ℝ)/100)⁻¹ = 100 := by norm_num
      _ < Real.exp 5 := he5
  have he5pos := Real.exp_pos (-5:ℝ)
  have hthird : (99:ℝ) < 100 / (1 + Real.exp (-5:ℝ)) := by
    rw [lt_div_iff (by positivity)]
    nlinarith
  have hthird_hi : (100:ℝ) / (1 + Real.exp (-5:ℝ)) < 100 := by
    rw [div_lt_iff (by positivity)]
    nlinarith
  have hspec : simSpecScore 0 (1/2) (-35)
      = 0.40 * (100 / (1 + Real.exp 0)) + 0.35 * ((1/2) * 100)
        + 0.25 * (100 / (1 + Real.exp (-5:ℝ))) := by
    unfold simSpecScore
    rw [show (-((0:ℝ) - 0) / 20) = 0 by norm_num]
    rw [show (-((-(-35:ℝ)) - (-15)) / 10) = (-5:ℝ) by norm_num]
    rw [max_eq_left (by positivity), min_eq_left ?hle]
    case hle =>
      rw [Real.exp_zero]
      norm_num
      linarith
  have hspec_lo : (62:ℝ) < simSpecScore 0 (1/2) (-35) := by
    rw [hspec, Real.exp_zero]
    nlinarith
  rw [hcode]
  intro heq
  have h3 := Option.some.inj heq
  rw [h3] at hscore_hi
  linarith

/-- C7 amended: the scorer returns `{score:null, grade:null}` exactly when
the 126-day horizon entry, the 63-day horizon entry, or any of the three
required statistics (6-month expected return, 3-month upside probability,
3-month 5% VaR) is missing; otherwise the score is
`round(clip(0.40·S(ret;0,20) + 0.35·(upside·100) + 0.25·S(var;−15,10), 0, 100), 2)`
— the VaR sigmoid applied to `var_5pct` itself — with grade thresholds at
70/50/30 on the rounded score. -/
theorem c7_simulation_score :
    (∀ hr : HorizonsResult,
      ((compute_simulation_score hr).score = none ∧
        (compute_simulation_score hr).grade = none ↔
        hr.h126 = none ∨ hr.h63 = none ∨
        (∃ s126 s63, hr.h126 = some s126 ∧ hr.h63 = some s63 ∧
          (s126.expected_return_pct = none ∨ s63.upside_prob = none ∨
            s63.var_5pct_pct = none)))) ∧
    (∀ (ret up var : ℝ) (e2 u2 v2 : Option ℝ),
      compute_simulation_score ⟨some ⟨e2, some up, some var⟩, some ⟨some ret, u2, v2⟩⟩ =
        ⟨some (amendedSimScore ret up var),
          some (simGradeSpec (amendedSimScore ret up var))⟩) := by
  constructor
  · intro hr
    obtain ⟨h63, h126⟩ := hr
    cases h126 with
    | none => simp [compute_simulation_score]
    | some s126 =>
      cases h63 with
      | none => simp [compute_simulation_score]
      | some s63 =>
        obtain ⟨er, eu, ev⟩ := s126
        obtain ⟨fr, fu, fv⟩ := s63
        cases er <;> cases fu <;> cases fv <;> simp [compute_simulation_score]
  · intro ret up var e2 u2 v2
    rfl

/-! ## C8 — Per-model RNG seeding (`analysis/simulation.py`, `run_monte_carlo`)

Inside the model loop, when a ticker is supplied (a non-empty string — Python
truthiness), each model's RNG seed is
`int(sha256(f"{ticker}:{model.value}").hexdigest(), 16) % 2**63`, and the
model simulators consume only their own child generator; without a ticker the
seed is drawn from a shared generator (order-dependent).  SHA-256 is
implemented below over ℕ (words are naturals reduced mod 2³²); the digest
value equals `int(hexdigest, 16)`.  The numeric simulators are NumPy
floating-point path generators, abstracted as an arbitrary deterministic
function of the model name and seed (`none` models a failed/skipped model). -/

/-- Right-rotation of a 32-bit word. -/
def rotr32 (n x : ℕ) : ℕ := ((x >>> n) ||| (x <<< (32 - n))) % 4294967296

/-- SHA-256 big sigma 0. -/
def bigS0 (x : ℕ) : ℕ := rotr32 2 x ^^^ rotr32 13 x ^^^ rotr32 22 x

/-- SHA-256 big sigma 1. -/
def bigS1 (x : ℕ) : ℕ := rotr32 6 x ^^^ rotr32 11 x ^^^ rotr32 25 x

/-- SHA-256 small sigma 0. -/
def smallS0 (x : ℕ) : ℕ := rotr32 7 x ^^^ rotr32 18 x ^^^ (x >>> 3)

/-- SHA-256 small sigma 1. -/
def smallS1 (x : ℕ) : ℕ := rotr32 17 x ^^^ rotr32 19 x ^^^ (x >>> 10)

/-- The 64 SHA-256 round constants. -/
def shaK : List ℕ :=
  [1116352408, 1899447441, 3049323471, 3921009573, 961987163, 1508970993, 2453635748, 2870763221,
   3624381080, 310598401, 607225278, 1426881987, 1925078388, 2162078206, 2614888103, 3248222580,
   3835390401, 4022224774, 264347078, 604807628, 770255983, 1249150122, 1555081692, 1996064986,
   2554220882, 2821834349, 2952996808, 3210313671, 3336571891, 3584528711, 113926993, 338241895,
   666307205, 773529912, 1294757372, 1396182291, 1695183700, 1986661051, 2177026350, 2456956037,
   2730485921, 2820302411, 3259730800, 3345764771, 3516065817, 3600352804, 4094571909, 275423344,
   430227734, 506948616, 659060556, 883997877, 958139571, 1322822218, 1537002063, 1747873779,
   1955562222, 2024104815, 2227730452, 2361852424, 2428436474, 2756734187, 3204031479, 3329325298]

/-- The SHA-256 initial hash state. -/
def shaH0 : List ℕ :=
  [1779033703, 3144134277, 1013904242, 2773480762,
   1359893119, 2600822924, 528734635, 1541459225]

/-- Big-endian bytes of a value, fixed width. -/
def beBytes (n : ℕ) (v : ℕ) : List ℕ :=
  (List.range n).map (fun i => (v >>> (8 * (n - 1 - i))) % 256)

/-- SHA-256 message padding: `0x80`, zeros to 56 mod 64, 8-byte bit length. -/
def padMessage (msg : List ℕ) : List ℕ :=
  let L := msg.length
  let z := (55 + 64 - (L % 64)) % 64
  msg ++ [128] ++ List.replicate z 0 ++ beBytes 8 (8 * L)

/-- Pack bytes into big-endian 32-bit words. -/
def toWords : List ℕ → List ℕ
  | b0 :: b1 :: b2 :: b3 :: rest =>
    (((b0 * 256 + b1) * 256 + b2) * 256 + b3) :: toWords rest
  | _ => []

/-- Split into 64-byte blocks (fuelled by the list length). -/
def chunksAux : ℕ → List ℕ → List (List ℕ)
  | 0, _ => []
  | _, [] => []
  | fuel + 1, l => l.take 64 :: chunksAux fuel (l.drop 64)

/-- All 64-byte blocks of a padded message. -/
def chunks64 (l : List ℕ) : List (List ℕ) := chunksAux l.length l

/-- Extend the 16 message-schedule words to 64. -/
def extendSchedule (w : List ℕ) : List ℕ :=
  (List.range 48).foldl (fun acc _ =>
    acc ++ [(smallS1 (acc.getD (acc.length - 2) 0) + acc.getD (acc.length - 7) 0
      + smallS0 (acc.getD (acc.length - 15) 0) + acc.getD (acc.length - 16) 0) % 4294967296]) w

/-- One SHA-256 compression round over the 8-word state. -/
def shaRound (w : List ℕ) (st : List ℕ) (t : ℕ) : List ℕ :=
  match st with
  | [a, b, c, d, e, f, g, hh] =>
    let s1 := bigS1 e
    let ch := (e &&& f) ^^^ ((4294967295 ^^^ e) &&& g)
    let temp1 := (hh + s1 + ch + shaK.getD t 0 + w.getD t 0) % 4294967296
    let s0 := bigS0 a
    let maj := (a &&& b) ^^^ (a &&& c) ^^^ (b &&& c)
    let temp2 := (s0 + maj) % 4294967296
    [(temp1 + temp2) % 4294967296, a, b, c, (d + temp1) % 4294967296, e, f, g]
  | _ => st

/-- Compress one 64-byte block into the hash state. -/
def compressBlock (h : List ℕ) (block : List ℕ) : List ℕ :=
  let w := extendSchedule (toWords block)
  let fin := (List.range 64).foldl (shaRound w) h
  List.zipWith (fun x y => (x + y) % 4294967296) h fin

/-- SHA-256 digest of a byte list, as its 8 words. -/
def sha256Words (msg : List ℕ) : List ℕ :=
  (chunks64 (padMessage msg)).foldl compressBlock shaH0

/-- SHA-256 digest as a 256-bit natural — exactly Python's
`int(hashlib.sha256(msg).hexdigest(), 16)`. -/
def sha256Nat (msg : List ℕ) : ℕ :=
  (sha256Words msg).foldl (fun acc w => acc * 4294967296 + w) 0

set_option maxHeartbeats 8000000 in
set_option maxRecDepth 10000 in
/-- FIPS 180-2 test vector: the SHA-256 implementation above hashes the bytes
of the string consisting of the characters a, b, c to the expected digest. -/
theorem sha256_test_vector : sha256Nat [97, 98, 99]
    = 0xba7816bf8f01cfea414140de5dae2223b00361a396177a9cb410ff61f20015ad := by
  decide

/-- UTF-8 bytes of a string (tickers and model names are ASCII). -/
def strBytes (s : String) : List ℕ := s.toUTF8.toList.map (fun b => b.toNat)

/-- The per-model seed of `run_monte_carlo` when a ticker is given:
`int(sha256(f"{ticker}:{model.value}").hexdigest(), 16) % 2**63`. -/
def model_seed_for (ticker model : String) : ℕ :=
  sha256Nat (strBytes (ticker ++ ":" ++ model)) % 2 ^ 63

/-- The model loop of `run_monte_carlo`: walks the model list; with a ticker
the seed is `model_seed_for`, without one it is drawn from the shared
generator stream (index `k`); a `none` simulation result (model failure) adds
no entry to `model_results`. -/
def runModelsAux {α : Type} : String → List String → (ℕ → ℕ) →
    (String → ℕ → Option α) → ℕ → List (String × α)
  | _, [], _, _, _ => []
  | ticker, m :: rest, shared, simulate, k =>
    let seed := if ticker ≠ "" then model_seed_for ticker m else shared k
    let knext := if ticker ≠ "" then k else k + 1
    (match simulate m seed with
     | some r => [(m, r)]
     | none => []) ++ runModelsAux ticker rest shared simulate knext

/-- Entry point for the model loop (shared-generator counter starts at 0). -/
def run_monte_carlo_models {α : Type} (ticker : String) (models : List String)
    (shared : ℕ → ℕ) (simulate : String → ℕ → Option α) : List (String × α) :=
  runModelsAux ticker models shared simulate 0

theorem runModelsAux_lookup_not_mem {α : Type} (ticker : String) (models : List String)
    (shared : ℕ → ℕ) (simulate : String → ℕ → Option α) (k : ℕ) (m : String)
    (hm : m ∉ models) :
    List.lookup m (runModelsAux ticker models shared simulate k) = none := by
  induction models generalizing k with
  | nil => rfl
  | cons mm rest ih =>
    have hne : m ≠ mm := fun hx => hm (hx ▸ List.mem_cons_self mm rest)
    have hrest : m ∉ rest := fun hx => hm (List.mem_cons_of_mem mm hx)
    show List.lookup m ((match simulate mm
        (if ticker ≠ "" then model_seed_for ticker mm else shared k) with
      | some r => [(mm, r)]
      | none => []) ++ runModelsAux ticker rest shared simulate
        (if ticker ≠ "" then k else k + 1)) = none
    cases simulate mm (if ticker ≠ "" then model_seed_for ticker mm else shared k) with
    | none => simpa using ih _ hrest
    | some r =>
      simpa [List.lookup_cons, beq_false_of_ne hne] using ih _ hrest

theorem runModelsAux_lookup_mem {α : Type} (ticker : String) (h : ticker ≠ "")
    (models : List String) (shared : ℕ → ℕ) (simulate : String → ℕ → Option α)
    (k : ℕ) (m : String) (hm : m ∈ models) :
    List.lookup m (runModelsAux ticker models shared simulate k)
      = simulate m (model_seed_for ticker m) := by
  induction models generalizing k with
  | nil => cases hm
  | cons mm rest ih =>
    show List.lookup m ((match simulate mm
        (if ticker ≠ "" then model_seed_for ticker mm else shared k) with
      | some r => [(mm, r)]
      | none => []) ++ runModelsAux ticker rest shared simulate
        (if ticker ≠ "" then k else k + 1)) = _
    rw [if_pos h, if_pos h]
    by_cases heq : m = mm
    · subst heq
      cases hsim : simulate m (model_seed_for ticker m) with
      | some r => simp [List.lookup_cons]
      | none =>
        simp only [List.nil_append]
        by_cases hrest : m ∈ rest
        · rw [ih _ hrest]
          exact hsim
        · exact runModelsAux_lookup_not_mem ticker rest shared simulate _ m hrest
    · have hrest : m ∈ rest := by
        cases hm with
        | head => exact absurd rfl heq
        | tail _ hx => exact hx
      cases simulate mm (model_seed_for ticker mm) with
      | none => simpa using ih _ hrest
      | some r =>
        simpa [List.lookup_cons, beq_false_of_ne heq] using ih _ hrest

/-- C8: for any non-empty ticker, each model's seed is derived only from
SHA-256 of `"ticker:model"` (mod 2⁶³), so the model's output — any
deterministic function of its inputs and that seed — is the same in every run
and does not depend on which sibling models run alongside it, nor on the
state of the shared fallback generator. -/
theorem c8_seed_isolation {α : Type} (ticker : String) (h : ticker ≠ "")
    (models₁ models₂ : List String) (m : String) (h1 : m ∈ models₁) (h2 : m ∈ models₂)
    (shared₁ shared₂ : ℕ → ℕ) (simulate : String → ℕ → Option α) :
    List.lookup m (run_monte_carlo_models ticker models₁ shared₁ simulate)
      = simulate m (model_seed_for ticker m) ∧
    List.lookup m (run_monte_carlo_models ticker models₁ shared₁ simulate)
      = List.lookup m (run_monte_carlo_models ticker models₂ shared₂ simulate) := by
  have e1 := runModelsAux_lookup_mem ticker h models₁ shared₁ simulate 0 m h1
  have e2 := runModelsAux_lookup_mem ticker h models₂ shared₂ simulate 0 m h2
  exact ⟨e1, by rw [run_monte_carlo_models, run_monte_carlo_models, e1, e2]⟩

/-- Model-name constants of `SimModel`. -/
def gbmName : String := "gbm"

/-- See `gbmName`. -/
def garchName : String := "garch"

/-- See `gbmName`. -/
def hestonName : String := "heston"

/-- See `gbmName`. -/
def mertonName : String := "merton"

/-- A concrete deterministic stand-in simulator for the witness. -/
def witnessSim (m : String) (seed : ℕ) : Option (String × ℕ) := some (m, seed)

/-- C8, witness: the Samsung Electronics ticker with the full model set
versus the GBM-only set. -/
theorem c8_seed_isolation_witness :
    (tickerA ≠ "") ∧ (gbmName ∈ [gbmName, garchName, hestonName, mertonName]) ∧
    (gbmName ∈ [gbmName]) ∧
    (List.lookup gbmName (run_monte_carlo_models tickerA
        [gbmName, garchName, hestonName, mertonName] id witnessSim)
      = witnessSim gbmName (model_seed_for tickerA gbmName) ∧
    List.lookup gbmName (run_monte_carlo_models tickerA
        [gbmName, garchName, hestonName, mertonName] id witnessSim)
      = List.lookup gbmName (run_monte_carlo_models tickerA [gbmName] id witnessSim)) :=
  ⟨by simp [tickerA], List.mem_cons_self _ _, List.mem_cons_self _ _,
    c8_seed_isolation tickerA (by simp [tickerA])
      [gbmName, garchName, hestonName, mertonName] [gbmName] gbmName
      (List.mem_cons_self _ _) (List.mem_cons_self _ _) id id witnessSim⟩

/-! ## C9 — Sentiment-derived ensemble weights (`analysis/sentiment.py`,
`_compute_ensemble_weights`) -/

/-- The four model weights (`BASE_ENSEMBLE_WEIGHTS` shape). -/
structure EnsembleWeights where
  gbm : ℝ
  garch : ℝ
  heston : ℝ
  merton : ℝ

/-- `BASE_ENSEMBLE_WEIGHTS` of `analysis/sentiment.py`. -/
def BASE_ENSEMBLE_WEIGHTS : EnsembleWeights := ⟨0.25, 0.30, 0.20, 0.25⟩

/-- Sum of the four entries. -/
noncomputable def EnsembleWeights.total (w : EnsembleWeights) : ℝ :=
  w.gbm + w.garch + w.heston + w.merton

/-- Embedding of `_compute_ensemble_weights(S)`: softmax of
`φ = (S, −0.8S, 0.6|S|, 1.2·max(0,−S))` against the base weights, with the
source's `total == 0` fallback to the base weights. -/
noncomputable def compute_ensemble_weights (S : ℝ) : EnsembleWeights :=
  let u_gbm := BASE_ENSEMBLE_WEIGHTS.gbm * Real.exp (1.0 * S)
  let u_garch := BASE_ENSEMBLE_WEIGHTS.garch * Real.exp (0.8 * (-S))
  let u_heston := BASE_ENSEMBLE_WEIGHTS.heston * Real.exp (0.6 * |S|)
  let u_merton := BASE_ENSEMBLE_WEIGHTS.merton * Real.exp (1.2 * max 0 (-S))
  let total := u_gbm + u_garch + u_heston + u_merton
  if total = 0 then BASE_ENSEMBLE_WEIGHTS
  else ⟨u_gbm / total, u_garch / total, u_heston / total, u_merton / total⟩

/-- C9: for every effective sentiment score (the theorem does not even need
the `[−1, 1]` restriction), the four ensemble weight overrides sum to exactly
1 in real arithmetic, hence to 1.0 within 1e-9. -/
theorem c9_ensemble_weights_sum (S : ℝ) :
    |(compute_ensemble_weights S).total - 1| ≤ 1/1000000000 := by
  have h1 : (0:ℝ) < BASE_ENSEMBLE_WEIGHTS.gbm * Real.exp (1.0 * S) := by
    unfold BASE_ENSEMBLE_WEIGHTS
    positivity
  have h2 : (0:ℝ) < BASE_ENSEMBLE_WEIGHTS.garch * Real.exp (0.8 * (-S)) := by
    unfold BASE_ENSEMBLE_WEIGHTS
    positivity
  have h3 : (0:ℝ) < BASE_ENSEMBLE_WEIGHTS.heston * Real.exp (0.6 * |S|) := by
    unfold BASE_ENSEMBLE_WEIGHTS
    positivity
  have h4 : (0:ℝ) < BASE_ENSEMBLE_WEIGHTS.merton * Real.exp (1.2 * max 0 (-S)) := by
    unfold BASE_ENSEMBLE_WEIGHTS
    positivity
  have htot : (0:ℝ) < BASE_ENSEMBLE_WEIGHTS.gbm * Real.exp (1.0 * S)
      + BASE_ENSEMBLE_WEIGHTS.garch * Real.exp (0.8 * (-S))
      + BASE_ENSEMBLE_WEIGHTS.heston * Real.exp (0.6 * |S|)
      + BASE_ENSEMBLE_WEIGHTS.merton * Real.exp (1.2 * max 0 (-S)) := by linarith
  unfold compute_ensemble_weights
  rw [if_neg htot.ne']
  show |(_ / _ + _ / _ + _ / _ + _ / _) - 1| ≤ _
  rw [div_add_div_same, div_add_div_same, div_add_div_same, div_self htot.ne']
  norm_num

end Whaleback
